import Mathlib

/-!
Shallow embedding of the Poseidon hash implementation in
`src/hash/src/poseidon.rs` (crate `hash` of the repository), over the
BN254 scalar field `ark_bn254::Fr`.

Rust `Vec<Fr>` is modelled as `List Fr`; in-place index updates become
`List.set`, reads become `List.getD` (Rust indexing panics out of
bounds; the claims we settle only ever read in bounds, with explicit
length hypotheses where needed).  The `&mut self` methods become
functions `Poseidon → Poseidon`.
-/

set_option maxRecDepth 100000

/-- The modulus of the BN254 scalar field (`ark_bn254::Fr`). -/
def frModulus : Nat :=
  21888242871839275222246405745257275088548364400416034343698204186575808495617

/-- The field `Fr = ark_bn254::Fr`, an external collaborator of the crate. -/
abbrev Fr := ZMod frModulus

instance : NeZero frModulus := ⟨by norm_num [frModulus]⟩

/-- `enum PoseidonHashType` from `poseidon.rs`. -/
inductive PoseidonHashType where
  | MerkleTree
  | ConstInputLen
deriving DecidableEq

/-- `struct PoseidonParams` from `poseidon.rs`. -/
structure PoseidonParams where
  t : Nat
  alpha : Nat
  num_f : Nat
  num_p : Nat
  mds_matrix : List (List Fr)
  round_constants : List Fr
deriving DecidableEq

/-- `struct Poseidon` from `poseidon.rs`. -/
structure Poseidon where
  state : List Fr
  params : PoseidonParams
deriving DecidableEq

/-- Modelled from the spec: the constants module (`constants::constants()`,
file `src/hash/src/constants.rs`) is absent from the sources.  The spec
describes it as an external collaborator providing, per supported width `t`,
a flat sequence of decimal-string-encoded round constants and a row-major
`t × t` MDS matrix of decimal-string-encoded field elements, indexed by `t`.
We model the table after parsing: two width-indexed maps of field elements,
with arbitrary contents. -/
structure ConstantsTable where
  c : Nat → List Fr
  m : Nat → List (List Fr)

/-- `load_constants` from `poseidon.rs`: slice `t * (num_f + num_p)` round
constants out of the table row for width `t`, and build the `t × t` MDS
matrix from the matrix row for width `t`. -/
def load_constants (tbl : ConstantsTable) (t num_f num_p : Nat) :
    List (List Fr) × List Fr :=
  let c_str := tbl.c t
  let m_str := tbl.m t
  let round_constants := c_str.take (t * (num_f + num_p))
  let mds := (List.range t).map (fun i =>
    (List.range t).map (fun j => (m_str.getD i []).getD j 0))
  (mds, round_constants)

/-- `PoseidonParams::new` from `poseidon.rs`: `alpha = 5`, `num_f = 57`,
`num_p = 8`, constants loaded for width `t`. -/
def PoseidonParams.new (tbl : ConstantsTable) (t : Nat) : PoseidonParams :=
  let mc := load_constants tbl t 57 8
  { t := t, alpha := 5, num_f := 57, num_p := 8
    mds_matrix := mc.1, round_constants := mc.2 }

/-- `Poseidon::new` from `poseidon.rs`.  Note: the Rust code computes
`domain_tag` with the bitwise-XOR operator `^` (not exponentiation) and
then never uses it; the initial state is `Fr::zero()` followed by the
input elements. -/
def Poseidon.new (tbl : ConstantsTable) (state : List Fr)
    (hash_type : PoseidonHashType) : Poseidon :=
  let t := state.length + 1
  let domain_tag : Nat :=
    if hash_type = PoseidonHashType.MerkleTree then
      (2 ^^^ state.length) + 1
    else
      (2 ^^^ 64) * state.length
  let new_state : List Fr := 0 :: state
  let _ := domain_tag
  { state := new_state, params := PoseidonParams.new tbl t }

/-- One iteration of the loop body of `Poseidon::sbox_full`:
`temp = state[0]; state[i] = state[0].square(); state[i] = state[0].square();
state[i] *= temp` (both squarings read `state[0]`, as in the source). -/
def sbox_full_step (s : List Fr) (i : Nat) : List Fr :=
  let temp := s.getD 0 0
  let s := s.set i ((s.getD 0 0) ^ 2)
  let s := s.set i ((s.getD 0 0) ^ 2)
  s.set i ((s.getD i 0) * temp)

/-- `Poseidon::sbox_full` from `poseidon.rs`. -/
def Poseidon.sbox_full (p : Poseidon) : Poseidon :=
  { p with state := (List.range p.params.t).foldl sbox_full_step p.state }

/-- `Poseidon::sbox_partial` from `poseidon.rs`. -/
def Poseidon.sbox_partial (p : Poseidon) : Poseidon :=
  let temp := p.state.getD 0 0
  let s := p.state.set 0 ((p.state.getD 0 0) ^ 2)
  let s := s.set 0 ((s.getD 0 0) ^ 2)
  { p with state := s.set 0 ((s.getD 0 0) * temp) }

/-- `Poseidon::sbox` from `poseidon.rs`: full round when
`round_i < num_p / 2 || round_i > num_p / 2 + num_f`, else partial. -/
def Poseidon.sbox (p : Poseidon) (round_i : Nat) : Poseidon :=
  if round_i < p.params.num_p / 2 ∨
     round_i > p.params.num_p / 2 + p.params.num_f then
    p.sbox_full
  else
    Poseidon.sbox_partial p

/-- `Poseidon::product_mds` from `poseidon.rs` (its `round_i` argument is
unused in the source as well). -/
def Poseidon.product_mds (p : Poseidon) (round_i : Nat) : Poseidon :=
  let _ := round_i
  let new_state := (List.range p.params.t).map (fun i =>
    (List.range p.params.t).foldl
      (fun acc j =>
        acc + p.state.getD j 0 * (p.params.mds_matrix.getD i []).getD j 0)
      0)
  { p with state := new_state }

/-- `Poseidon::add_round_constants` from `poseidon.rs`:
`state[i] += round_constants[ith * t + i]` for `i` in `0..t`. -/
def Poseidon.add_round_constants (p : Poseidon) (ith : Nat) : Poseidon :=
  let new_state := (List.range p.params.t).foldl
    (fun s i =>
      s.set i (s.getD i 0 +
        p.params.round_constants.getD (ith * p.params.t + i) 0))
    p.state
  { p with state := new_state }

/-- One iteration of the loop body of `Poseidon::hash`: round constants,
then S-box, then MDS product. -/
def Poseidon.round (p : Poseidon) (i : Nat) : Poseidon :=
  ((p.add_round_constants i).sbox i).product_mds i

/-- `Poseidon::hash` from `poseidon.rs`: run `num_f + num_p` rounds and
return `Ok(state[1])`.  The Rust method mutates `self`; we return the
result together with the mutated `Poseidon`. -/
def Poseidon.hash (p : Poseidon) : Except String Fr × Poseidon :=
  let num_rounds := p.params.num_f + p.params.num_p
  let q := (List.range num_rounds).foldl Poseidon.round p
  (Except.ok (q.state.getD 1 0), q)

/-- Parameters of width `t` with empty constant tables, used to evaluate the
state-transformation steps (which do not depend on the table contents) on
concrete inputs. -/
def testParams (t : Nat) : PoseidonParams :=
  { t := t, alpha := 5, num_f := 57, num_p := 8
    mds_matrix := [], round_constants := [] }

/-- A concrete two-element Poseidon state used to evaluate the round steps. -/
def testPoseidon2 : Poseidon := { state := [2, 3], params := testParams 2 }

/-- A concrete instantiation of the (spec-modelled) constants table: all
round constants equal to `1`, identity MDS matrix for width 3.  Used to
evaluate the full round loop on explicit inputs. -/
def demoTbl : ConstantsTable :=
  { c := fun _ => List.replicate 200 1
    m := fun _ => [[1, 0, 0], [0, 1, 0], [0, 0, 1]] }

/-- The parameters `PoseidonParams::new` loads for width 3 from `demoTbl`. -/
def demoParams : PoseidonParams := PoseidonParams.new demoTbl 3

/-- `Poseidon::new(vec![1, 2], ConstInputLen)` over `demoTbl`. -/
def demoPoseidon : Poseidon :=
  Poseidon.new demoTbl [1, 2] PoseidonHashType.ConstInputLen

/-- State of `demoPoseidon` after rounds `0..20`. -/
def demoS20 : List Fr :=
  [497535579851420968904962655505226473958565278311730704484689329514145351202,
   16295728498162099160195251138625095097172570065154763407945263166149657214428,
   16295728498162099160195251138625095097172570065154763407945263166149657214428]

/-- State of `demoPoseidon` after rounds `0..40`. -/
def demoS40 : List Fr :=
  [391440507430071007704665085972576646149511734080652070172270387038817393953,
   16295728498162099160195251138625095097172570065154763407945263166149657214448,
   16295728498162099160195251138625095097172570065154763407945263166149657214448]

/-- State of `demoPoseidon` after the full 65-round first hash. -/
def demoS65 : List Fr :=
  [18626886339582399466143882501851836254254917517452785524575402068244283406264,
   788960598264987441088637937878336844707202671994170883900281052482633306757,
   788960598264987441088637937878336844707202671994170883900281052482633306757]

/-- State after rounds `0..20` of the second hash call (starting from
`demoS65`). -/
def demoT20 : List Fr :=
  [12769851681679444595360413780077261214776944844437865047982652446750844583775,
   10316267031650550786436163002118514884119432438197293274439645882323673998396,
   10316267031650550786436163002118514884119432438197293274439645882323673998396]

/-- State after rounds `0..40` of the second hash call. -/
def demoT40 : List Fr :=
  [13466192099717462143876744300845765662410904698135120396936975729628602304479,
   10316267031650550786436163002118514884119432438197293274439645882323673998416,
   10316267031650550786436163002118514884119432438197293274439645882323673998416]

/-- State after the full 65 rounds of the second hash call. -/
def demoT65 : List Fr :=
  [3526165492456144235263110785384749580671711578064183351738073398668326129598,
   20194745828235451011572304587373655321931892484826639399258410641999041913367,
   20194745828235451011572304587373655321931892484826639399258410641999041913367]

/-! ## Helper lemmas: the round steps never touch `params` -/

theorem sbox_full_params (p : Poseidon) : p.sbox_full.params = p.params := rfl

theorem sbox_partial_params (p : Poseidon) :
    ( Poseidon.sbox_partial p).params = p.params := rfl

theorem sbox_params (p : Poseidon) (i : Nat) : (p.sbox i).params = p.params := by
  unfold Poseidon.sbox
  split <;> rfl

theorem product_mds_params (p : Poseidon) (i : Nat) :
    (p.product_mds i).params = p.params := rfl

theorem add_round_constants_params (p : Poseidon) (i : Nat) :
    (p.add_round_constants i).params = p.params := rfl

theorem round_params (p : Poseidon) (i : Nat) : (p.round i).params = p.params := by
  unfold Poseidon.round
  rw [product_mds_params, sbox_params, add_round_constants_params]

theorem foldl_round_params (l : List Nat) :
    ∀ p : Poseidon, (l.foldl Poseidon.round p).params = p.params := by
  induction l with
  | nil => intro p; rfl
  | cons a l ih =>
      intro p
      simp only [List.foldl_cons]
      rw [ih, round_params]

/-! ## Helper lemmas: state lengths -/

theorem foldl_length_preserved (g : List Fr → Nat → List Fr)
    (hg : ∀ s i, (g s i).length = s.length) :
    ∀ (l : List Nat) (s : List Fr), (l.foldl g s).length = s.length := by
  intro l
  induction l with
  | nil => intro s; rfl
  | cons a l ih =>
      intro s
      simp only [List.foldl_cons]
      rw [ih, hg]

theorem sbox_full_step_length (s : List Fr) (i : Nat) :
    (sbox_full_step s i).length = s.length := by
  simp [sbox_full_step]

theorem sbox_full_state_length (p : Poseidon) :
    p.sbox_full.state.length = p.state.length :=
  foldl_length_preserved sbox_full_step sbox_full_step_length _ _

theorem sbox_partial_state_length (p : Poseidon) :
    ( Poseidon.sbox_partial p).state.length = p.state.length := by
  simp [ Poseidon.sbox_partial]

theorem sbox_state_length (p : Poseidon) (i : Nat) :
    (p.sbox i).state.length = p.state.length := by
  unfold Poseidon.sbox
  split
  · exact sbox_full_state_length p
  · exact sbox_partial_state_length p

theorem add_round_constants_state_length (p : Poseidon) (i : Nat) :
    (p.add_round_constants i).state.length = p.state.length :=
  foldl_length_preserved _ (fun s j => by simp) _ _

theorem product_mds_state_length (p : Poseidon) (i : Nat) :
    (p.product_mds i).state.length = p.params.t := by
  simp [Poseidon.product_mds]

theorem round_state_length (p : Poseidon) (i : Nat) :
    (p.round i).state.length = p.params.t := by
  unfold Poseidon.round
  rw [product_mds_state_length, sbox_params, add_round_constants_params]

/-! ## Claim theorems -/

/-- Claim C1 (code-bug evaluation): at the failing input `[1, 2]` with mode
`ConstInputLen`, `Poseidon::new` places `Fr::zero()` — not the domain tag
`2^64 * 2` — in state slot 0 (the computed `domain_tag` is an unused
variable in the source), while the claimed tag is a nonzero field
element. -/
theorem claim_C1_slot0_zero_not_tag :
    ∀ tbl : ConstantsTable,
      (Poseidon.new tbl [1, 2] PoseidonHashType.ConstInputLen).state = [0, 1, 2] ∧
      (2 : Fr) ^ 64 * 2 ≠ 0 :=
  fun _ => ⟨rfl, by decide⟩

/-- Claim C2 (code-bug evaluation): on the state `[2, 3]`, `sbox_full` maps
slot 1 to `2^15` (it squares `state[0]` — already updated to `2^5` — and
multiplies by it), not to the claimed `3^5 = 243`. -/
theorem claim_C2_sbox_full_reads_slot0 :
    testPoseidon2.sbox_full.state = [(2 : Fr) ^ 5, (2 : Fr) ^ 15] ∧
    (2 : Fr) ^ 15 ≠ (3 : Fr) ^ 5 := by
  decide

/-- Claim C3 (counterexample): with `num_p = 8` and `num_f = 57`, round 61
is a partial round — `sbox` takes the partial branch because full requires
`round_i > num_p / 2 + num_f = 61` strictly — contradicting the claim that
rounds `61..65` are full.  On the state `[2, 3]` the partial and full
branches visibly differ. -/
theorem claim_C3_round61_is_partial :
    testPoseidon2.sbox 61 = Poseidon.sbox_partial testPoseidon2 ∧
    (testPoseidon2.sbox 61).state = [(2 : Fr) ^ 5, 3] ∧
    (testPoseidon2.sbox 61).state ≠ testPoseidon2.sbox_full.state := by
  decide

/-- Claim C3 (amended): with `num_p = 8` and `num_f = 57`, `sbox` performs a
full round exactly for round indices `i < 4` or `i > 61` (within the 65-round
schedule: `0..3` and `62..64`), and a partial round exactly for
`4 ≤ i ≤ 61`. -/
theorem claim_C3_classification :
    ∀ (p : Poseidon) (i : Nat), p.params.num_p = 8 → p.params.num_f = 57 →
      ((i < 4 ∨ 61 < i) → p.sbox i = p.sbox_full) ∧
      (4 ≤ i → i ≤ 61 → p.sbox i = Poseidon.sbox_partial p) := by
  intro p i hp hf
  unfold Poseidon.sbox
  rw [hp, hf]
  refine ⟨fun h => ?_, fun h1 h2 => ?_⟩
  · have hc : i < 8 / 2 ∨ i > 8 / 2 + 57 := by omega
    rw [if_pos hc]
  · have hc : ¬(i < 8 / 2 ∨ i > 8 / 2 + 57) := by omega
    rw [if_neg hc]

/-- Witness for the amended C3 classification at `p = testPoseidon2`,
`i = 62` (a full round of the trailing band). -/
theorem claim_C3_classification_witness :
    testPoseidon2.params.num_p = 8 ∧ testPoseidon2.params.num_f = 57 ∧
    testPoseidon2.sbox 62 = testPoseidon2.sbox_full :=
  ⟨rfl, rfl, (claim_C3_classification testPoseidon2 62 rfl rfl).1 (by omega)⟩

/-- Claim C5 (code-bug evaluation): `Poseidon::new` ignores the hash mode
(the `domain_tag` it computes from the mode is never stored), so for every
constants table and every input vector the `MerkleTree` and `ConstInputLen`
instances — and hence their digests — coincide. -/
theorem claim_C5_modes_indistinguishable :
    ∀ (tbl : ConstantsTable) (v : List Fr),
      Poseidon.new tbl v PoseidonHashType.MerkleTree =
        Poseidon.new tbl v PoseidonHashType.ConstInputLen ∧
      (Poseidon.new tbl v PoseidonHashType.MerkleTree).hash =
        (Poseidon.new tbl v PoseidonHashType.ConstInputLen).hash :=
  fun _ _ => ⟨rfl, rfl⟩

/-- Claim C6: `sbox_partial` replaces slot 0 by its fifth power — computed
as `((x^2)^2) * x` — and leaves every other slot unchanged. -/
theorem claim_C6_partial_round_slot0_only :
    ∀ (x : Fr) (rest : List Fr) (ps : PoseidonParams),
      ( Poseidon.sbox_partial (Poseidon.mk (x :: rest) ps)).state
          = (((x ^ 2) ^ 2) * x) :: rest ∧
      ((x ^ 2) ^ 2) * x = x ^ 5 :=
  fun x rest ps => ⟨rfl, by ring⟩

/-- Two `Poseidon` values with equal states and equal parameters are
equal. -/
theorem poseidon_ext {p q : Poseidon} (hs : p.state = q.state)
    (hp : p.params = q.params) : p = q := by
  cases p
  cases q
  cases hs
  cases hp
  rfl

/-- `hash` on a Poseidon with the loaded parameters (`num_f = 57`,
`num_p = 8`) folds `round` over all 65 round indices and returns
`Ok(state[1])` of the final state, together with that state. -/
theorem hash_runs_65 (q : Poseidon) (hf : q.params.num_f = 57)
    (hp : q.params.num_p = 8) :
    q.hash =
      (Except.ok (((List.range 65).foldl Poseidon.round q).state.getD 1 0),
       (List.range 65).foldl Poseidon.round q) := by
  simp only [Poseidon.hash, hf, hp]

/-- Claim C7: a `Poseidon` built by `Poseidon::new` (whose loaded parameters
have `num_f = 57`, `num_p = 8`) never returns an error from `hash`: the
result is `Ok` of slot 1 of the state reached by folding the round —
constant addition, then S-box, then MDS product — over all
`num_f + num_p = 65` round indices. -/
theorem claim_C7_hash_total_65_rounds :
    ∀ (tbl : ConstantsTable) (input : List Fr) (mode : PoseidonHashType),
      input ≠ [] →
      (Poseidon.new tbl input mode).hash =
        (Except.ok (((List.range 65).foldl Poseidon.round
            (Poseidon.new tbl input mode)).state.getD 1 0),
         (List.range 65).foldl Poseidon.round (Poseidon.new tbl input mode)) :=
  fun tbl input mode _ => hash_runs_65 (Poseidon.new tbl input mode) rfl rfl

/-- Witness for C7 at the concrete instance `new(demoTbl, [1, 2],
ConstInputLen)`. -/
theorem claim_C7_witness :
    ([1, 2] : List Fr) ≠ [] ∧
    (Poseidon.new demoTbl [1, 2] PoseidonHashType.ConstInputLen).hash =
      (Except.ok (((List.range 65).foldl Poseidon.round
          (Poseidon.new demoTbl [1, 2] PoseidonHashType.ConstInputLen)).state.getD 1 0),
       (List.range 65).foldl Poseidon.round
          (Poseidon.new demoTbl [1, 2] PoseidonHashType.ConstInputLen)) :=
  ⟨by decide,
   claim_C7_hash_total_65_rounds demoTbl [1, 2] PoseidonHashType.ConstInputLen
     (by decide)⟩

/-- `getD` distributes over a componentwise sum of equal-length lists. -/
theorem getD_zipWith_add :
    ∀ (a b : List Fr) (j : Nat), a.length = b.length →
      (List.zipWith (· + ·) a b).getD j 0 = a.getD j 0 + b.getD j 0 := by
  intro a
  induction a with
  | nil =>
      intro b j h
      cases b with
      | nil => simp
      | cons y ys => simp at h
  | cons x xs ih =>
      intro b j h
      cases b with
      | nil => simp at h
      | cons y ys =>
          cases j with
          | zero => simp
          | succ n =>
              simp only [List.zipWith_cons_cons, List.getD_cons_succ]
              exact ih ys n (by simpa using h)

/-- A fold accumulating a pointwise sum splits into the sum of two folds. -/
theorem foldl_add_add (l : List Nat) (F G : Nat → Fr) :
    ∀ (x y z : Fr), z = x + y →
      l.foldl (fun acc j => acc + (F j + G j)) z =
        l.foldl (fun acc j => acc + F j) x +
          l.foldl (fun acc j => acc + G j) y := by
  induction l with
  | nil =>
      intro x y z hz
      simpa using hz
  | cons a l ih =>
      intro x y z hz
      simp only [List.foldl_cons]
      exact ih (x + F a) (y + G a) (z + (F a + G a)) (by rw [hz]; ring)

/-- The state produced by `product_mds`, written out. -/
theorem product_mds_state (p : Poseidon) (r : Nat) :
    (p.product_mds r).state =
      (List.range p.params.t).map (fun i =>
        (List.range p.params.t).foldl
          (fun acc j =>
            acc + p.state.getD j 0 * (p.params.mds_matrix.getD i []).getD j 0)
          0) := rfl

/-- Claim C8: the MDS mixing step is linear — applied to the componentwise
sum of two equal-length state vectors (with the same parameters, hence the
same MDS matrix) it yields the componentwise sum of the two mixed
states. -/
theorem claim_C8_mds_linear :
    ∀ (ps : PoseidonParams) (r : Nat) (a b : List Fr), a.length = b.length →
      ((Poseidon.mk (List.zipWith (· + ·) a b) ps).product_mds r).state =
        List.zipWith (· + ·)
          ((Poseidon.mk a ps).product_mds r).state
          ((Poseidon.mk b ps).product_mds r).state := by
  intro ps r a b h
  rw [product_mds_state, product_mds_state, product_mds_state]
  dsimp only
  rw [List.zipWith_map, List.zipWith_same]
  refine List.map_congr_left (fun i _ => ?_)
  rw [List.foldl_ext
        (fun acc j =>
          acc + (List.zipWith (· + ·) a b).getD j 0 *
            (ps.mds_matrix.getD i []).getD j 0)
        (fun acc j =>
          acc + (a.getD j 0 * (ps.mds_matrix.getD i []).getD j 0 +
                 b.getD j 0 * (ps.mds_matrix.getD i []).getD j 0))
        0
        (fun acc j _ => by dsimp only; rw [getD_zipWith_add a b j h, add_mul])]
  exact foldl_add_add (List.range ps.t)
    (fun j => a.getD j 0 * (ps.mds_matrix.getD i []).getD j 0)
    (fun j => b.getD j 0 * (ps.mds_matrix.getD i []).getD j 0)
    0 0 0 (by ring)

/-- Witness for C8 on the concrete vectors `[1, 2]` and `[3, 4]` with the
width-2 parameters. -/
theorem claim_C8_witness :
    ([1, 2] : List Fr).length = ([3, 4] : List Fr).length ∧
    ((Poseidon.mk (List.zipWith (· + ·) [1, 2] [3, 4]) (testParams 2)).product_mds 0).state =
      List.zipWith (· + ·)
        ((Poseidon.mk [1, 2] (testParams 2)).product_mds 0).state
        ((Poseidon.mk [3, 4] (testParams 2)).product_mds 0).state :=
  ⟨rfl, claim_C8_mds_linear (testParams 2) 0 [1, 2] [3, 4] rfl⟩

/-- Folding any number of rounds from a state of length `t` keeps the
length at `t` (after the first round `product_mds` forces it anyway). -/
theorem foldl_round_state_length (p : Poseidon)
    (h : p.state.length = p.params.t) :
    ∀ k : Nat,
      ((List.range k).foldl Poseidon.round p).state.length = p.params.t := by
  intro k
  cases k with
  | zero => simpa using h
  | succ n =>
      rw [List.range_succ, List.foldl_append]
      simp only [List.foldl_cons, List.foldl_nil]
      rw [round_state_length, foldl_round_params]

/-- Claim C9: for a state of length `t = params.t`, each of the three round
steps leaves the length at `t`, and so does any number of whole rounds of
the hash loop. -/
theorem claim_C9_state_length_invariant :
    ∀ (p : Poseidon) (i k : Nat), p.state.length = p.params.t →
      (p.add_round_constants i).state.length = p.params.t ∧
      (p.sbox i).state.length = p.params.t ∧
      (p.product_mds i).state.length = p.params.t ∧
      ((List.range k).foldl Poseidon.round p).state.length = p.params.t :=
  fun p i k h =>
    ⟨by rw [add_round_constants_state_length, h],
     by rw [sbox_state_length, h],
     product_mds_state_length p i,
     foldl_round_state_length p h k⟩

/-- Witness for C9 at the concrete instance `testPoseidon2` (state length
2, width 2). -/
theorem claim_C9_witness :
    testPoseidon2.state.length = testPoseidon2.params.t ∧
    ((testPoseidon2.add_round_constants 0).state.length = testPoseidon2.params.t ∧
     (testPoseidon2.sbox 0).state.length = testPoseidon2.params.t ∧
     (testPoseidon2.product_mds 0).state.length = testPoseidon2.params.t ∧
     ((List.range 2).foldl Poseidon.round testPoseidon2).state.length =
       testPoseidon2.params.t) :=
  ⟨rfl, claim_C9_state_length_invariant testPoseidon2 0 2 rfl⟩

/-! ## Evaluation of two chained `hash` calls on `demoPoseidon` (for C10),
chunked so that each kernel computation stays shallow. -/

theorem range65_chunks :
    List.range 65 = List.range' 0 20 ++ List.range' 20 20 ++ List.range' 40 25 := by
  simp [List.range_eq_range']
  rw [List.range'_append, List.range'_append]

theorem demo_chunk1_state :
    ((List.range' 0 20).foldl Poseidon.round demoPoseidon).state = demoS20 := by
  decide

theorem demo_chunk2_state :
    ((List.range' 20 20).foldl Poseidon.round (Poseidon.mk demoS20 demoParams)).state
      = demoS40 := by
  decide

theorem demo_chunk3_state :
    ((List.range' 40 25).foldl Poseidon.round (Poseidon.mk demoS40 demoParams)).state
      = demoS65 := by
  decide

theorem demo_chunk4_state :
    ((List.range' 0 20).foldl Poseidon.round (Poseidon.mk demoS65 demoParams)).state
      = demoT20 := by
  decide

theorem demo_chunk5_state :
    ((List.range' 20 20).foldl Poseidon.round (Poseidon.mk demoT20 demoParams)).state
      = demoT40 := by
  decide

theorem demo_chunk6_state :
    ((List.range' 40 25).foldl Poseidon.round (Poseidon.mk demoT40 demoParams)).state
      = demoT65 := by
  decide

theorem demo_chunk1 :
    (List.range' 0 20).foldl Poseidon.round demoPoseidon =
      Poseidon.mk demoS20 demoParams :=
  poseidon_ext demo_chunk1_state (by rw [foldl_round_params]; rfl)

theorem demo_chunk2 :
    (List.range' 20 20).foldl Poseidon.round (Poseidon.mk demoS20 demoParams) =
      Poseidon.mk demoS40 demoParams :=
  poseidon_ext demo_chunk2_state (by rw [foldl_round_params])

theorem demo_chunk3 :
    (List.range' 40 25).foldl Poseidon.round (Poseidon.mk demoS40 demoParams) =
      Poseidon.mk demoS65 demoParams :=
  poseidon_ext demo_chunk3_state (by rw [foldl_round_params])

theorem demo_chunk4 :
    (List.range' 0 20).foldl Poseidon.round (Poseidon.mk demoS65 demoParams) =
      Poseidon.mk demoT20 demoParams :=
  poseidon_ext demo_chunk4_state (by rw [foldl_round_params])

theorem demo_chunk5 :
    (List.range' 20 20).foldl Poseidon.round (Poseidon.mk demoT20 demoParams) =
      Poseidon.mk demoT40 demoParams :=
  poseidon_ext demo_chunk5_state (by rw [foldl_round_params])

theorem demo_chunk6 :
    (List.range' 40 25).foldl Poseidon.round (Poseidon.mk demoT40 demoParams) =
      Poseidon.mk demoT65 demoParams :=
  poseidon_ext demo_chunk6_state (by rw [foldl_round_params])

/-- The first `hash` call on `demoPoseidon`, evaluated. -/
theorem demo_hash1 :
    demoPoseidon.hash =
      (Except.ok (demoS65.getD 1 0), Poseidon.mk demoS65 demoParams) := by
  rw [hash_runs_65 demoPoseidon rfl rfl, range65_chunks, List.foldl_append,
      List.foldl_append, demo_chunk1, demo_chunk2, demo_chunk3]

/-- The second `hash` call (on the state left by the first), evaluated. -/
theorem demo_hash2 :
    (Poseidon.mk demoS65 demoParams).hash =
      (Except.ok (demoT65.getD 1 0), Poseidon.mk demoT65 demoParams) := by
  rw [hash_runs_65 _ rfl rfl, range65_chunks, List.foldl_append,
      List.foldl_append, demo_chunk4, demo_chunk5, demo_chunk6]

/-- `hash` leaves `params` untouched in the `Poseidon` it returns. -/
theorem hash_snd_params (p : Poseidon) : (p.hash).2.params = p.params :=
  foldl_round_params _ p

/-- Claim C10: `hash` is stateful rather than idempotent.  A second call on
the `Poseidon` left by the first call runs the 65-round loop again, starting
from the post-first-call state, and on the concrete instance `demoPoseidon`
its digest differs from the first digest. -/
theorem claim_C10_hash_stateful :
    (∀ p : Poseidon, p.params.num_f = 57 → p.params.num_p = 8 →
        (p.hash).2.hash =
          (Except.ok (((List.range 65).foldl Poseidon.round (p.hash).2).state.getD 1 0),
           (List.range 65).foldl Poseidon.round (p.hash).2)) ∧
    ((demoPoseidon.hash).2.hash).1 ≠ (demoPoseidon.hash).1 := by
  constructor
  · intro p hf hp
    exact hash_runs_65 (p.hash).2 (by rw [hash_snd_params, hf])
      (by rw [hash_snd_params, hp])
  · rw [demo_hash1]
    dsimp only
    rw [demo_hash2]
    simp only [ne_eq, Except.ok.injEq]
    decide
